import Mathlib

/-!
Verification of the ANARI remote-device server session core
(`libs/remote_device/Server.cpp`) and the helium parameter store
(`src/helium/utility/ParameterizedObject.cpp`).

The development is a shallow embedding: C++ structs become Lean structures,
vectors become lists, pointers become `Nat` values with `0` standing for
`nullptr`, and the unchecked `std::vector` indexing in the source is modelled
with `List.get?` where a `none` result marks an out-of-range access
(undefined behavior in the source), not an error return.

Type tags (`ANARIDataType`) and message-type tags are opaque wire constants
defined in external headers (`anari.h`, `common.h`); they are modelled as
distinct natural numbers, since the server only compares them for equality.
-/

namespace ANARIRemote

/-! ## ANARI data-type tags (opaque distinct codes, compared only for equality) -/

def ANARI_UNKNOWN : Nat := 0
def ANARI_DEVICE : Nat := 1
def ANARI_SURFACE : Nat := 2
def ANARI_CAMERA : Nat := 3
def ANARI_FRAME : Nat := 4
def ANARI_ARRAY1D : Nat := 5
def ANARI_ARRAY2D : Nat := 6
def ANARI_ARRAY3D : Nat := 7
def ANARI_FLOAT32 : Nat := 8
def ANARI_UFIXED8_RGBA_SRGB : Nat := 9
def ANARI_STRING_LIST : Nat := 10
def ANARI_DATA_TYPE_LIST : Nat := 11
def ANARI_STRING : Nat := 12

/-- `anari::isObject`: whether a data-type tag denotes an object-handle type.
Object handles on the wire occupy one 64-bit slot each. -/
def anariIsObject (t : Nat) : Bool :=
  (t == ANARI_DEVICE) || (t == ANARI_SURFACE) || (t == ANARI_CAMERA)
    || (t == ANARI_FRAME) || (t == ANARI_ARRAY1D) || (t == ANARI_ARRAY2D)
    || (t == ANARI_ARRAY3D)

/-- `anari::sizeOf`: byte size of one element of a data type. Object types are
pointer-width (8). Only the tags exercised by the server's frame pipeline need
exact sizes; unlisted POD tags default to 1. -/
def anariSizeOf (t : Nat) : Nat :=
  if t = ANARI_FLOAT32 then 4
  else if t = ANARI_UFIXED8_RGBA_SRGB then 4
  else if anariIsObject t then 8
  else 1

/-! ## Outbound message-type tags (opaque distinct codes from `common.h`) -/

def MsgChannelColor : Nat := 20
def MsgChannelDepth : Nat := 21
def MsgFrameIsReady : Nat := 22

/-! ## Little-endian byte codec

The wire codec is little-endian and tightly packed; `Buffer` reads and writes
fixed-width integers positionally. -/

/-- Encode `v` as `n` little-endian bytes (the low `8 n` bits of `v`). -/
def leEncode : Nat → Nat → List Nat
  | 0, _ => []
  | n + 1, v => v % 256 :: leEncode n (v / 256)

/-- Decode a little-endian byte list to a natural number. -/
def leDecode : List Nat → Nat
  | [] => 0
  | b :: bs => b + 256 * leDecode bs

/-! ## Resource manager (`struct ResourceManager` in Server.cpp)

Backend references (`ANARIDevice`, `ANARIObject`) are modelled as `Nat`, with
`0` standing for the null pointer. -/

/-- `struct ServerObject`: per-(device, object) record. Default-initialized
fields model `{nullptr, nullptr, ANARI_UNKNOWN}`. -/
structure ServerObject where
  device : Nat := 0
  handle : Nat := 0
  type : Nat := ANARI_UNKNOWN
deriving DecidableEq

instance : Inhabited ServerObject := ⟨{}⟩

/-- `struct ArrayInfo` (fields as read by the `NewArray` handler): array-rank
tag, element type tag, and up to three item counts. -/
structure ArrayInfo where
  type : Nat := ANARI_UNKNOWN
  elementType : Nat := ANARI_UNKNOWN
  numItems1 : Nat := 0
  numItems2 : Nat := 0
  numItems3 : Nat := 0
deriving DecidableEq

instance : Inhabited ArrayInfo := ⟨{}⟩

/-- `std::vector::resize(n)`: truncate to `n` elements or pad with
default-constructed elements up to length exactly `n`. -/
def resizeTo (l : List α) (n : Nat) (d : α) : List α :=
  l.take n ++ List.replicate (n - l.length) d

/-- `struct ResourceManager`: the three per-session top-level tables plus the
server-assigned device-handle counter. -/
structure ResourceManager where
  nextDeviceHandle : Nat := 1
  anariDevices : List Nat := []
  serverObjects : List (List ServerObject) := []
  serverArrays : List (List ArrayInfo) := []
deriving DecidableEq

/-- The session's initial resource manager: empty tables, next handle 1. -/
def ResourceManager.init : ResourceManager := {}

/-- `ResourceManager::registerDevice`: allocate the next server-assigned
device handle, resize all three tables to `max(size, handle+1)`, store the
backend device, and return the handle together with the new state. -/
def ResourceManager.registerDevice (rm : ResourceManager) (dev : Nat) :
    Nat × ResourceManager :=
  let handle := rm.nextDeviceHandle
  let newNumHandles := max rm.anariDevices.length (handle + 1)
  (handle,
    { nextDeviceHandle := handle + 1
      anariDevices := (resizeTo rm.anariDevices newNumHandles 0).set handle dev
      serverObjects := resizeTo rm.serverObjects newNumHandles []
      serverArrays := resizeTo rm.serverArrays newNumHandles {} })

/-- `ResourceManager::registerObject`: grow the per-device object table to
`max(size, objectID+1)` and store `{anariDevices[deviceID], anariObj, type}`
at `objectID`. The source indexes `serverObjects[deviceID]` and
`anariDevices[deviceID]` without a bounds check; `none` models that
out-of-range access (undefined behavior). -/
def ResourceManager.registerObject (rm : ResourceManager) (deviceID objectID : Nat)
    (anariObj : Nat) (type : Nat) : Option ResourceManager :=
  if deviceID < rm.serverObjects.length ∧ deviceID < rm.anariDevices.length then
    let inner := rm.serverObjects.getD deviceID []
    let inner' := (resizeTo inner (max inner.length (objectID + 1)) {}).set
      objectID ⟨rm.anariDevices.getD deviceID 0, anariObj, type⟩
    some { rm with serverObjects := rm.serverObjects.set deviceID inner' }
  else none

/-- `ResourceManager::registerArray`: `registerObject` with the array's rank
tag, then store the `ArrayInfo` in the per-device array table at `objectID`
(again via unchecked indexing, modelled with `none` on out-of-range). -/
def ResourceManager.registerArray (rm : ResourceManager) (deviceID objectID : Nat)
    (anariObj : Nat) (info : ArrayInfo) : Option ResourceManager :=
  (rm.registerObject deviceID objectID anariObj info.type).bind fun rm1 =>
    if deviceID < rm1.serverArrays.length then
      let inner := rm1.serverArrays.getD deviceID []
      let inner' := (resizeTo inner (max inner.length (objectID + 1)) {}).set
        objectID info
      some { rm1 with serverArrays := rm1.serverArrays.set deviceID inner' }
    else none

/-- `ResourceManager::getDevice`: null (`0`) when the handle is out of range,
otherwise the stored slot. -/
def ResourceManager.getDevice (rm : ResourceManager) (deviceID : Nat) : Nat :=
  if deviceID < rm.anariDevices.length then rm.anariDevices.getD deviceID 0
  else 0

/-- `ResourceManager::getServerObject`: zero-initialized record on any
out-of-range handle, otherwise the stored record. -/
def ResourceManager.getServerObject (rm : ResourceManager)
    (deviceHandle objectHandle : Nat) : ServerObject :=
  if deviceHandle < rm.serverObjects.length
      ∧ objectHandle < (rm.serverObjects.getD deviceHandle []).length then
    (rm.serverObjects.getD deviceHandle []).getD objectHandle {}
  else {}

/-- `ResourceManager::getArrayInfo`: zero-initialized info on any
out-of-range handle, otherwise the stored info. -/
def ResourceManager.getArrayInfo (rm : ResourceManager)
    (deviceHandle objectHandle : Nat) : ArrayInfo :=
  if deviceHandle < rm.serverArrays.length
      ∧ objectHandle < (rm.serverArrays.getD deviceHandle []).length then
    (rm.serverArrays.getD deviceHandle []).getD objectHandle {}
  else {}

/-! ## Array payload translation (`Server::translateArrayData`)

For an object-handle element type the payload is a densely packed array of
64-bit client handles (8 bytes per slot, little-endian); the loop rewrites
slot `i` to `serverObjects[handles[i]].handle`. The source performs that
vector indexing without a bounds check; a `none` result below models the
out-of-range access (undefined behavior), not an error return. -/

/-- The client handles decoded from the first `n` 8-byte slots of a payload
(the values the translation loop reads as table indices). -/
def slotClientHandles : Nat → List Nat → List Nat
  | 0, _ => []
  | n + 1, bs => leDecode (bs.take 8) :: slotClientHandles n (bs.drop 8)

/-- Rewrite the first `n` 8-byte slots in place, replacing each client handle
with the backend reference stored in the per-device object table `tbl`.
`none` marks an out-of-range table access. -/
def translateSlots (tbl : List ServerObject) : Nat → List Nat → Option (List Nat)
  | 0, bs => some bs
  | n + 1, bs =>
    match tbl.get? (leDecode (bs.take 8)) with
    | none => none
    | some so =>
      (translateSlots tbl n (bs.drop 8)).map fun rest => leEncode 8 so.handle ++ rest

/-- `Server::translateArrayData`: for an object element type, rewrite
`numItems1 * max(1,numItems2) * max(1,numItems3)` 64-bit slots via the
per-device object table; for any other element type the payload bytes are
forwarded unchanged. `payload` stands for the `arrayData` buffer after it is
read from the message. -/
def translateArrayData (tbl : List ServerObject) (info : ArrayInfo)
    (payload : List Nat) : Option (List Nat) :=
  if anariIsObject info.elementType then
    translateSlots tbl
      (info.numItems1 * max 1 info.numItems2 * max 1 info.numItems3) payload
  else some payload

/-! ## Frame delivery pipeline (`RenderFrame` handler) -/

/-- `struct CompressionFeatures` (from Compression.h, as used by Server.cpp):
the two codec capability flags exchanged at `NewDevice` time. -/
structure CompressionFeatures where
  hasTurboJPEG : Bool
  hasSNAPPY : Bool
deriving DecidableEq

/-- `struct TurboJPEGOptions`: encoder parameters the color path fills in. -/
structure TurboJPEGOptions where
  width : Nat
  height : Nat
  pixelFormat : Nat
  quality : Nat
deriving DecidableEq

/-- `TurboJPEGOptions::PixelFormat::RGBX` as an opaque code. -/
def PixelFormatRGBX : Nat := 3

/-- The result of `anariMapFrame` on one channel: mapped bytes (`none` models
a null pointer), width, height, and pixel type tag. -/
structure FrameChannelMap where
  data : Option (List Nat)
  width : Nat
  height : Nat
  pixelType : Nat

/-- The channel byte count the handler computes:
`type == ANARI_UNKNOWN ? 0 : width * height * anari::sizeOf(type)`. -/
def channelSizeBytes (m : FrameChannelMap) : Nat :=
  if m.pixelType = ANARI_UNKNOWN then 0
  else m.width * m.height * anariSizeOf m.pixelType

/-- One posted frame-channel response: the fixed header fields written first
(`objectHandle`, `width`, `height`, `pixelType`) and the bytes written after
them (`body`). -/
structure ChannelResponse where
  msgType : Nat
  objectHandle : Nat
  width : Nat
  height : Nat
  pixelType : Nat
  body : List Nat
deriving DecidableEq

/-- An encoder for the lossy color codec: `compressTurboJPEG` together with
`getMaxCompressedBufferSizeTurboJPEG`; `none` models either a zero max buffer
size or the compress call returning `false`. -/
def JpegEncoder := TurboJPEGOptions → List Nat → Option (List Nat)

/-- The `channel.color` response of the `RenderFrame` handler: `none` when the
mapped pointer is null or the computed size is zero (nothing is posted).
Lossy compression is attempted iff both negotiated TurboJPEG flags hold and
the pixel type is `ANARI_UFIXED8_RGBA_SRGB`, at quality 80; on encoder success
the body is a `uint32` compressed byte count followed by the compressed bytes;
on encoder failure nothing is written after the header; without compression
the raw channel bytes are written. -/
def colorChannelResponse (cf client : CompressionFeatures) (objectHandle : Nat)
    (jpeg : JpegEncoder) (m : FrameChannelMap) : Option ChannelResponse :=
  match m.data with
  | none => none
  | some color =>
    if channelSizeBytes m = 0 then none
    else
      some ⟨MsgChannelColor, objectHandle, m.width, m.height, m.pixelType,
        if (cf.hasTurboJPEG && client.hasTurboJPEG) = true
            ∧ m.pixelType = ANARI_UFIXED8_RGBA_SRGB then
          match jpeg ⟨m.width, m.height, PixelFormatRGBX, 80⟩ color with
          | some out => leEncode 4 out.length ++ out
          | none => []
        else color.take (channelSizeBytes m)⟩

/-- The `channel.depth` response of the `RenderFrame` handler: `none` when the
mapped pointer is null or the computed size is zero. Lossless compression is
used iff both negotiated SNAPPY flags hold and the pixel type is
`ANARI_FLOAT32`; the body is then a `uint32` byte count plus the compressed
bytes (the source ignores the compressor's return value), otherwise the raw
channel bytes. -/
def depthChannelResponse (cf client : CompressionFeatures) (objectHandle : Nat)
    (snappy : List Nat → List Nat) (m : FrameChannelMap) : Option ChannelResponse :=
  match m.data with
  | none => none
  | some depth =>
    if channelSizeBytes m = 0 then none
    else
      some ⟨MsgChannelDepth, objectHandle, m.width, m.height, m.pixelType,
        if (cf.hasSNAPPY && client.hasSNAPPY) = true ∧ m.pixelType = ANARI_FLOAT32 then
          leEncode 4 (snappy (depth.take (channelSizeBytes m))).length
            ++ snappy (depth.take (channelSizeBytes m))
        else depth.take (channelSizeBytes m)⟩

/-- Outcome of the `RenderFrame` handler: the resource manager after the
message (the handler only reads it), whether `anariRenderFrame` was invoked,
the frame argument passed to it, and the posted responses in post order. -/
structure RenderFrameOutcome where
  rmAfter : ResourceManager
  renderCalled : Bool
  frameArg : Nat
  responses : List ChannelResponse
deriving DecidableEq

/-- The `RenderFrame` branch of `Server::handleMessage`: validate only the
device handle (log and return on failure); otherwise pass
`getServerObject(dh, oh).handle` — unchecked, possibly null — to the backend
render/wait calls, then post the color response (if any) followed by the
depth response (if any), each carrying the request's object handle. -/
def handleRenderFrame (rm : ResourceManager) (client : CompressionFeatures)
    (deviceHandle objectHandle : Nat) (cf : CompressionFeatures)
    (jpeg : JpegEncoder) (snappy : List Nat → List Nat)
    (colorMap depthMap : FrameChannelMap) : RenderFrameOutcome :=
  if rm.getDevice deviceHandle = 0 then ⟨rm, false, 0, []⟩
  else
    ⟨rm, true, (rm.getServerObject deviceHandle objectHandle).handle,
      (colorChannelResponse cf client objectHandle jpeg colorMap).toList
        ++ (depthChannelResponse cf client objectHandle snappy depthMap).toList⟩

/-- Whether a frame-channel response is a `ChannelColor` message. -/
def isColorResponse (r : ChannelResponse) : Bool := r.msgType == MsgChannelColor

/-- Whether a frame-channel response is a `ChannelDepth` message. -/
def isDepthResponse (r : ChannelResponse) : Bool := r.msgType == MsgChannelDepth

/-- Outcome of the `FrameReady` handler: the resource manager after the
message, whether `anariFrameReady` was invoked, the frame argument passed to
it, and the posted `(messageType, objectHandle)` responses. -/
structure FrameReadyOutcome where
  rmAfter : ResourceManager
  frameReadyCalled : Bool
  frameArg : Nat
  waitArg : Nat
  responses : List (Nat × Nat)
deriving DecidableEq

/-- The `FrameReady` branch of `Server::handleMessage`: validate only the
device handle; otherwise call `anariFrameReady` with the unchecked
`getServerObject(dh, oh).handle` and the request's wait mask, and post
`FrameIsReady{objectHandle}`. -/
def handleFrameReady (rm : ResourceManager) (deviceHandle objectHandle : Nat)
    (waitMask : Nat) : FrameReadyOutcome :=
  if rm.getDevice deviceHandle = 0 then ⟨rm, false, 0, 0, []⟩
  else
    ⟨rm, true, (rm.getServerObject deviceHandle objectHandle).handle, waitMask,
      [(MsgFrameIsReady, objectHandle)]⟩

/-! ## CommitParams handler -/

/-- A positional `Buffer::read` of one 64-bit little-endian handle; `none`
when fewer than 8 bytes remain (a read past end, a protocol error per the
wire codec contract). -/
def readHandle (bs : List Nat) : Option (Nat × List Nat) :=
  if 8 ≤ bs.length then some (leDecode (bs.take 8), bs.drop 8) else none

/-- The backend call the `CommitParams` handler ends in: dropped without a
backend call, `anariCommitParameters(dev, dev)` on the device itself, or
`anariCommitParameters(dev, obj)` on an object. -/
inductive CommitOutcome where
  | dropped
  | device (dev : Nat)
  | object (dev obj : Nat)
deriving DecidableEq

/-- The `CommitParams` branch of `Server::handleMessage`: if the body length
equals `sizeof(Handle)` (8), read one handle and commit the device it names;
otherwise read `{deviceHandle; objectHandle}` and commit the named object.
Validation failures log and drop the request. -/
def handleCommitParams (rm : ResourceManager) (body : List Nat) : CommitOutcome :=
  if body.length = 8 then
    if rm.getDevice (leDecode (body.take 8)) = 0 then .dropped
    else .device (rm.getDevice (leDecode (body.take 8)))
  else
    match readHandle body with
    | none => .dropped
    | some (deviceHandle, rest) =>
      match readHandle rest with
      | none => .dropped
      | some (objectHandle, _) =>
        if rm.getDevice deviceHandle = 0
            ∨ (rm.getServerObject deviceHandle objectHandle).handle = 0 then
          .dropped
        else
          .object (rm.getDevice deviceHandle)
            (rm.getServerObject deviceHandle objectHandle).handle

/-! ## GetProperty handler -/

/-- Outcome of the `GetProperty` handler. `thrown` models the C++
`throw std::runtime_error(...)` escaping the handler (there is no try/catch
in `Server::handleMessage`); `dropped` is the logged invalid-device return;
`ok` is the posted `Property` response, with the payload serialization
abstracted to the backend-supplied bytes. -/
inductive GetPropertyOutcome where
  | dropped
  | ok (objectHandle : Nat) (name : String) (result : Int) (payload : List Nat)
  | thrown (msg : String)
deriving DecidableEq

/-- The `GetProperty` branch of `Server::handleMessage`: validate the device;
if the object handle is unknown, retarget the query at the device itself;
then branch on the requested type — `ANARI_STRING_LIST` and POD types call
the backend getter and post a `Property` response, while
`ANARI_DATA_TYPE_LIST` throws a runtime error that nothing in the handler
catches. `backendProp` abstracts `anariGetProperty` as
`(target, name, type, size, mask) ↦ (result, payloadBytes)`. -/
def handleGetProperty (rm : ResourceManager) (deviceHandle objectHandle : Nat)
    (name : String) (type size mask : Nat)
    (backendProp : Nat → String → Nat → Nat → Nat → Int × List Nat) :
    GetPropertyOutcome :=
  let dev := rm.getDevice deviceHandle
  if dev = 0 then .dropped
  else
    let so := rm.getServerObject deviceHandle objectHandle
    let target := if so.handle = 0 then dev else so.handle
    if type = ANARI_STRING_LIST then
      let r := backendProp target name type size mask
      .ok objectHandle name r.1 r.2
    else if type = ANARI_DATA_TYPE_LIST then
      .thrown "getProperty with ANARI_DATA_TYPE_LIST not implemented yet!"
    else
      let r := backendProp target name type size mask
      .ok objectHandle name r.1 r.2

/-! ## helium::ParameterizedObject (ParameterizedObject.cpp) -/

/-- `helium::AnariAny` as stored by `setParam`: the type tag and the value
bytes it was constructed from. -/
structure AnariAny where
  type : Nat
  value : List Nat
deriving DecidableEq

/-- The net effect of `findParam(name)->second = a` on the parameter list:
`std::find_if` locates the first entry whose name equals `name` and its value
is overwritten; if none exists, `findParam` appends `(name, AnariAny())` and
the assignment fills in `a`. -/
def setParamList (ps : List (String × AnariAny)) (name : String) (a : AnariAny) :
    List (String × AnariAny) :=
  match ps with
  | [] => [(name, a)]
  | p :: rest =>
    if p.1 = name then (p.1, a) :: rest else p :: setParamList rest name a

/-- `helium::ParameterizedObject`: the ordered parameter list `m_params`. -/
structure ParameterizedObject where
  m_params : List (String × AnariAny) := []
deriving DecidableEq

/-- `ParameterizedObject::setParam(name, type, v)`:
`findParam(name)->second = AnariAny(type, v)`. -/
def ParameterizedObject.setParam (o : ParameterizedObject) (name : String)
    (type : Nat) (v : List Nat) : ParameterizedObject :=
  ⟨setParamList o.m_params name ⟨type, v⟩⟩

/-- Number of entries for a given parameter name. -/
def ParameterizedObject.countName (o : ParameterizedObject) (name : String) : Nat :=
  o.m_params.countP fun p => p.1 == name

/-! ## Resource-manager operation traces (for the table invariant) -/

/-- One `ResourceManager` operation, as invoked by the dispatcher. -/
inductive RMOp where
  | regDevice (dev : Nat)
  | regObject (deviceID objectID anariObj type : Nat)
  | regArray (deviceID objectID anariObj : Nat) (info : ArrayInfo)
  | getDev (deviceID : Nat)
  | getObj (deviceHandle objectHandle : Nat)
  | getArr (deviceHandle objectHandle : Nat)
deriving DecidableEq

/-- The device index an operation registers into, when it registers one. -/
def RMOp.regIndex : RMOp → Option Nat
  | .regObject d _ _ _ => some d
  | .regArray d _ _ _ => some d
  | _ => none

/-- Apply one operation; getters leave the state unchanged, `registerDevice`
always succeeds, and the register operations propagate the `none` that marks
an out-of-range table access. -/
def ResourceManager.applyOp (rm : ResourceManager) : RMOp → Option ResourceManager
  | .regDevice dev => some (rm.registerDevice dev).2
  | .regObject d o obj ty => rm.registerObject d o obj ty
  | .regArray d o obj info => rm.registerArray d o obj info
  | .getDev _ => some rm
  | .getObj _ _ => some rm
  | .getArr _ _ => some rm

/-- Run a trace of operations left to right. -/
def runOps (rm : ResourceManager) : List RMOp → Option ResourceManager
  | [] => some rm
  | op :: ops =>
    match rm.applyOp op with
    | none => none
    | some rm1 => runOps rm1 ops

/-- The top-level table invariant: the three per-session tables have equal
length. -/
def rmInv (rm : ResourceManager) : Prop :=
  rm.serverObjects.length = rm.anariDevices.length
    ∧ rm.serverArrays.length = rm.anariDevices.length

instance (rm : ResourceManager) : Decidable (rmInv rm) := by
  unfold rmInv; infer_instance

/-! ## Device-registration traces (for handle assignment) -/

/-- Register a list of backend devices in order, returning the final state
and the handles `registerDevice` returned, in order. -/
def registerAll (rm : ResourceManager) : List Nat → ResourceManager × List Nat
  | [] => (rm, [])
  | d :: ds =>
    let r := rm.registerDevice d
    let rest := registerAll r.2 ds
    (rest.1, r.1 :: rest.2)

/-! ## Concrete session states used by witnesses and counterexamples -/

/-- The session state after one `NewDevice` creating backend device `7`:
device handle 1 is valid, no objects are registered. -/
def rmOneDevice : ResourceManager := (ResourceManager.init.registerDevice 7).2

/-- The session state after `NewDevice` (backend device `7`) and a `NewObject`
registering backend object `77` of type `ANARI_SURFACE` at object handle 5 on
device handle 1. -/
def rmDevObj : ResourceManager :=
  ((ResourceManager.init.registerDevice 7).2.registerObject 1 5 77
    ANARI_SURFACE).getD ResourceManager.init

/-- A mapped color channel whose pointer is null (`anariMapFrame` returned
`nullptr`). -/
def cmNullPtr : FrameChannelMap := ⟨none, 640, 480, ANARI_UFIXED8_RGBA_SRGB⟩

/-- A mapped depth channel whose pointer is null. -/
def dmNullPtr : FrameChannelMap := ⟨none, 640, 480, ANARI_FLOAT32⟩

/-- A 1x1 mapped color channel of pixel type `ANARI_UFIXED8_RGBA_SRGB` with
four pixel bytes. -/
def cmSmall : FrameChannelMap := ⟨some [1, 2, 3, 4], 1, 1, ANARI_UFIXED8_RGBA_SRGB⟩

/-- A 1x1 mapped depth channel of pixel type `ANARI_FLOAT32` with four
bytes. -/
def dmSmall : FrameChannelMap := ⟨some [0, 0, 64, 64], 1, 1, ANARI_FLOAT32⟩

/-- A per-device object table with a registered backend object `77` at object
handle 1 (slot 0 is the default null record). -/
def c7tbl : List ServerObject := [{}, ⟨7, 77, ANARI_SURFACE⟩]

/-- Array info for a 1D array of two `ANARI_SURFACE` handles. -/
def c7info : ArrayInfo := ⟨ANARI_ARRAY1D, ANARI_SURFACE, 2, 0, 0⟩

/-- Array info for a 1D array of two `ANARI_FLOAT32` elements (a POD type). -/
def c7infoPod : ArrayInfo := ⟨ANARI_ARRAY1D, ANARI_FLOAT32, 2, 0, 0⟩

/-- A two-slot object-array payload holding client handles 1 and 0. -/
def c7payload : List Nat := leEncode 8 1 ++ leEncode 8 0

/-- Array info for a 1D array of one `ANARI_SURFACE` handle. -/
def c3infoOne : ArrayInfo := ⟨ANARI_ARRAY1D, ANARI_SURFACE, 1, 0, 0⟩

/-- A concrete operation trace: one device registration followed by an object
registration, an array registration and a lookup on device handle 1. -/
def c10ops : List RMOp :=
  [.regDevice 7, .regObject 1 3 99 ANARI_SURFACE,
   .regArray 1 4 100 ⟨ANARI_ARRAY1D, ANARI_SURFACE, 2, 0, 0⟩, .getDev 1]

/-! ## Helper lemmas: little-endian codec -/

theorem leEncode_length (n v : Nat) : (leEncode n v).length = n := by
  induction n generalizing v with
  | zero => simp [leEncode]
  | succ k ih => simp [leEncode, ih]

theorem leDecode_leEncode (n v : Nat) : leDecode (leEncode n v) = v % 256 ^ n := by
  induction n generalizing v with
  | zero => simp [leEncode, leDecode, Nat.mod_one]
  | succ k ih =>
    rw [leEncode, leDecode, ih, pow_succ', Nat.mod_mul]

theorem leDecode_leEncode_64 (v : Nat) (h : v < 2 ^ 64) :
    leDecode (leEncode 8 v) = v := by
  rw [leDecode_leEncode]
  exact Nat.mod_eq_of_lt (by norm_num at h ⊢; omega)

theorem take8_leEncode8_append (v : Nat) (rest : List Nat) :
    ((leEncode 8 v ++ rest).take 8) = leEncode 8 v :=
  List.take_left' (leEncode_length 8 v)

theorem drop8_leEncode8_append (v : Nat) (rest : List Nat) :
    ((leEncode 8 v ++ rest).drop 8) = rest :=
  List.drop_left' (leEncode_length 8 v)

/-! ## Helper lemmas: ParameterizedObject -/

theorem setParamList_twice (ps : List (String × AnariAny)) (n : String)
    (a b : AnariAny) : setParamList (setParamList ps n a) n b = setParamList ps n b := by
  induction ps with
  | nil => simp [setParamList]
  | cons p rest ih =>
    by_cases h : p.1 = n
    · simp [setParamList, h]
    · simp [setParamList, h, ih]

theorem setParamList_countP (ps : List (String × AnariAny)) (n : String)
    (a : AnariAny) :
    (setParamList ps n a).countP (fun p => p.1 == n)
      = max 1 (ps.countP fun p => p.1 == n) := by
  induction ps with
  | nil => simp [setParamList]
  | cons p rest ih =>
    by_cases h : p.1 = n
    · simp [setParamList, h, List.countP_cons]
    · simp [setParamList, h, List.countP_cons, ih]

/-- Claim C9: setting parameter `n` to `v1` and then to `v2` on the same
`ParameterizedObject` leaves the object in the same state as setting `n` to
`v2` once, and the resulting store has exactly one entry for `n` when none
existed and the original count otherwise (no duplicate entry is created). -/
theorem c9_setParam_last_value_wins (o : ParameterizedObject) (name : String)
    (t1 t2 : Nat) (v1 v2 : List Nat) :
    ((o.setParam name t1 v1).setParam name t2 v2 = o.setParam name t2 v2)
      ∧ (o.setParam name t2 v2).countName name = max 1 (o.countName name) := by
  refine ⟨?_, ?_⟩
  · simp only [ParameterizedObject.setParam]
    exact congrArg ParameterizedObject.mk
      (setParamList_twice o.m_params name ⟨t1, v1⟩ ⟨t2, v2⟩)
  · exact setParamList_countP o.m_params name ⟨t2, v2⟩

/-- Witness for C9 at a concrete object and parameter values. -/
theorem c9_setParam_last_value_wins_witness :
    (((⟨[]⟩ : ParameterizedObject).setParam "aspect" ANARI_FLOAT32 [1]).setParam
        "aspect" ANARI_FLOAT32 [2]
      = (⟨[]⟩ : ParameterizedObject).setParam "aspect" ANARI_FLOAT32 [2])
    ∧ ((⟨[]⟩ : ParameterizedObject).setParam "aspect" ANARI_FLOAT32 [2]).countName
        "aspect" = max 1 ((⟨[]⟩ : ParameterizedObject).countName "aspect") :=
  c9_setParam_last_value_wins ⟨[]⟩ "aspect" ANARI_FLOAT32 ANARI_FLOAT32 [1] [2]

/-! ## Helper lemmas: device registration -/

theorem set_append_length (A : List α) (a b : α) :
    (A ++ [a]).set A.length b = A ++ [b] := by
  rw [List.set_append]
  simp

theorem resizeTo_append_one (A : List Nat) (d : Nat) :
    resizeTo A (A.length + 1) d = A ++ [d] := by
  rw [resizeTo, List.take_of_length_le (Nat.le_succ A.length)]
  simp

/-- Under the alignment `anariDevices.length = nextDeviceHandle` (true after
the first registration), `registerDevice` appends one slot and returns the
old counter as the handle. -/
theorem registerDevice_aligned (rm : ResourceManager) (dev : Nat)
    (h : rm.anariDevices.length = rm.nextDeviceHandle) :
    (rm.registerDevice dev).1 = rm.nextDeviceHandle
      ∧ (rm.registerDevice dev).2.anariDevices = rm.anariDevices ++ [dev]
      ∧ (rm.registerDevice dev).2.nextDeviceHandle = rm.nextDeviceHandle + 1 := by
  refine ⟨rfl, ?_, rfl⟩
  show (resizeTo rm.anariDevices (max rm.anariDevices.length (rm.nextDeviceHandle + 1)) 0).set
      rm.nextDeviceHandle dev = rm.anariDevices ++ [dev]
  rw [← h, Nat.max_eq_right (Nat.le_succ _), resizeTo_append_one,
    set_append_length]

/-- Characterization of a run of device registrations from an aligned state:
the returned handles are consecutive starting at the current counter, and the
device table is extended by the registered devices in order. -/
theorem registerAll_aligned (devs : List Nat) (rm : ResourceManager)
    (h : rm.anariDevices.length = rm.nextDeviceHandle) :
    (registerAll rm devs).2 = List.range' rm.nextDeviceHandle devs.length
      ∧ (registerAll rm devs).1.anariDevices = rm.anariDevices ++ devs
      ∧ (registerAll rm devs).1.nextDeviceHandle
          = rm.nextDeviceHandle + devs.length := by
  induction devs generalizing rm with
  | nil => simp [registerAll]
  | cons d ds ih =>
    obtain ⟨h1, h2, h3⟩ := registerDevice_aligned rm d h
    have halign : (rm.registerDevice d).2.anariDevices.length
        = (rm.registerDevice d).2.nextDeviceHandle := by
      rw [h2, h3, List.length_append, h]
      simp
    obtain ⟨i1, i2, i3⟩ := ih (rm.registerDevice d).2 halign
    refine ⟨?_, ?_, ?_⟩
    · show (rm.registerDevice d).1 :: (registerAll (rm.registerDevice d).2 ds).2
        = List.range' rm.nextDeviceHandle (ds.length + 1)
      rw [h1, i1, h3, List.range'_succ]
    · show (registerAll (rm.registerDevice d).2 ds).1.anariDevices
        = rm.anariDevices ++ d :: ds
      rw [i2, h2, List.append_assoc]
      rfl
    · show (registerAll (rm.registerDevice d).2 ds).1.nextDeviceHandle
        = rm.nextDeviceHandle + (ds.length + 1)
      rw [i3, h3]
      omega

/-- The first registration from the initial session state returns handle 1
and leaves the table `[null, dev]`. -/
theorem registerDevice_init (dev : Nat) :
    (ResourceManager.init.registerDevice dev).1 = 1
      ∧ (ResourceManager.init.registerDevice dev).2.anariDevices = [0, dev]
      ∧ (ResourceManager.init.registerDevice dev).2.nextDeviceHandle = 2 :=
  ⟨rfl, rfl, rfl⟩

/-- Claim C5: device handles are server-assigned and consecutive from 1 (the
first `NewDevice` of a session returns exactly 1); for every returned handle
`h`, `getDevice h` returns the backend reference registered at `h`; and
`getDevice` returns null for handle 0 and for every handle never returned by
`registerDevice`. -/
theorem c5_device_handles (devs : List Nat) :
    ((registerAll ResourceManager.init devs).2 = List.range' 1 devs.length)
    ∧ (devs ≠ [] → (registerAll ResourceManager.init devs).2.head? = some 1)
    ∧ ((registerAll ResourceManager.init devs).1.getDevice 0 = 0)
    ∧ (∀ i, i < devs.length →
        (registerAll ResourceManager.init devs).1.getDevice (i + 1) = devs.getD i 0)
    ∧ (∀ h, devs.length < h →
        (registerAll ResourceManager.init devs).1.getDevice h = 0) := by
  cases devs with
  | nil =>
    refine ⟨rfl, by simp, rfl, by simp, fun h _ => rfl⟩
  | cons d ds =>
    have hinit := registerDevice_init d
    have halign : (ResourceManager.init.registerDevice d).2.anariDevices.length
        = (ResourceManager.init.registerDevice d).2.nextDeviceHandle := by
      rw [hinit.2.1, hinit.2.2]
      rfl
    obtain ⟨i1, i2, i3⟩ :=
      registerAll_aligned ds (ResourceManager.init.registerDevice d).2 halign
    have hdevlist : (registerAll ResourceManager.init (d :: ds)).1.anariDevices
        = 0 :: d :: ds := by
      show (registerAll (ResourceManager.init.registerDevice d).2 ds).1.anariDevices
        = 0 :: d :: ds
      rw [i2, hinit.2.1]
      rfl
    have hlen : (registerAll ResourceManager.init (d :: ds)).1.anariDevices.length
        = ds.length + 2 := by
      rw [hdevlist]
      simp
    refine ⟨?_, ?_, ?_, ?_, ?_⟩
    · show (ResourceManager.init.registerDevice d).1
          :: (registerAll (ResourceManager.init.registerDevice d).2 ds).2
        = List.range' 1 (ds.length + 1)
      rw [hinit.1, i1, hinit.2.2, List.range'_succ]
    · intro _
      show ((ResourceManager.init.registerDevice d).1
          :: (registerAll (ResourceManager.init.registerDevice d).2 ds).2).head?
        = some 1
      rw [hinit.1]
      rfl
    · rw [ResourceManager.getDevice, if_pos (by rw [hlen]; omega), hdevlist]
      rfl
    · intro i hi
      simp only [List.length_cons] at hi
      rw [ResourceManager.getDevice, if_pos (by rw [hlen]; omega), hdevlist]
      show (0 :: d :: ds).getD (i + 1) 0 = (d :: ds).getD i 0
      rw [List.getD_cons_succ]
    · intro h hh
      simp only [List.length_cons] at hh
      rw [ResourceManager.getDevice, if_neg (by rw [hlen]; omega)]

/-- Witness for C5 on the concrete trace registering devices 7 and 9. -/
theorem c5_device_handles_witness :
    (registerAll ResourceManager.init [7, 9]).2 = List.range' 1 2
    ∧ (registerAll ResourceManager.init [7, 9]).1.getDevice 1 = 7
    ∧ (registerAll ResourceManager.init [7, 9]).1.getDevice 0 = 0
    ∧ (registerAll ResourceManager.init [7, 9]).1.getDevice 3 = 0 := by
  have h := c5_device_handles [7, 9]
  refine ⟨h.1, ?_, h.2.2.1, h.2.2.2.2 3 (by decide)⟩
  simpa using h.2.2.2.1 0 (by decide)

/-! ## CommitParams theorems -/

/-- Claim C6: a `CommitParams` body of exactly one handle (8 bytes) commits
the device named by that handle; any other body length is parsed as
`{deviceHandle; objectHandle}` and commits the named object; and the chosen
variant is determined solely by the body length. -/
theorem c6_commitParams_discriminator (rm : ResourceManager) (body : List Nat) :
    (body.length = 8 → rm.getDevice (leDecode (body.take 8)) ≠ 0 →
        handleCommitParams rm body
          = .device (rm.getDevice (leDecode (body.take 8))))
    ∧ (∀ d o rest, body = leEncode 8 d ++ (leEncode 8 o ++ rest) →
        d < 2 ^ 64 → o < 2 ^ 64 →
        rm.getDevice d ≠ 0 → (rm.getServerObject d o).handle ≠ 0 →
        handleCommitParams rm body
          = .object (rm.getDevice d) (rm.getServerObject d o).handle)
    ∧ (∀ dev, handleCommitParams rm body = .device dev → body.length = 8)
    ∧ (∀ dev obj, handleCommitParams rm body = .object dev obj →
        body.length ≠ 8) := by
  refine ⟨?_, ?_, ?_, ?_⟩
  · intro hlen hdev
    simp [handleCommitParams, hlen, hdev]
  · intro d o rest hbody hd ho hdev hobj
    subst hbody
    have hlen : (leEncode 8 d ++ (leEncode 8 o ++ rest)).length
        = 16 + rest.length := by
      simp [leEncode_length]
      omega
    have hNe : ¬((leEncode 8 d ++ (leEncode 8 o ++ rest)).length = 8) := by
      rw [hlen]; omega
    have h1 : readHandle (leEncode 8 d ++ (leEncode 8 o ++ rest))
        = some (d, leEncode 8 o ++ rest) := by
      rw [readHandle, if_pos (by rw [hlen]; omega), take8_leEncode8_append,
        drop8_leEncode8_append, leDecode_leEncode_64 d hd]
    have h2 : readHandle (leEncode 8 o ++ rest) = some (o, rest) := by
      rw [readHandle, if_pos (by simp [leEncode_length]),
        take8_leEncode8_append, drop8_leEncode8_append,
        leDecode_leEncode_64 o ho]
    simp only [handleCommitParams, if_neg hNe, h1, h2,
      if_neg (not_or.mpr ⟨hdev, hobj⟩)]
  · intro dev hres
    by_cases hlen : body.length = 8
    · exact hlen
    · rw [handleCommitParams, if_neg hlen] at hres
      split at hres
      · exact CommitOutcome.noConfusion hres
      · split at hres
        · exact CommitOutcome.noConfusion hres
        · split at hres
          · exact CommitOutcome.noConfusion hres
          · exact CommitOutcome.noConfusion hres
  · intro dev obj hres hlen
    rw [handleCommitParams, if_pos hlen] at hres
    split at hres
    · exact CommitOutcome.noConfusion hres
    · exact CommitOutcome.noConfusion hres

/-- Witness for C6: on the concrete state `rmDevObj`, the 8-byte body commits
the device and a 16-byte body commits object 5. -/
theorem c6_commitParams_discriminator_witness :
    handleCommitParams rmDevObj (leEncode 8 1)
      = .device (rmDevObj.getDevice (leDecode ((leEncode 8 1).take 8)))
    ∧ handleCommitParams rmDevObj (leEncode 8 1 ++ (leEncode 8 5 ++ []))
      = .object (rmDevObj.getDevice 1) (rmDevObj.getServerObject 1 5).handle := by
  refine ⟨(c6_commitParams_discriminator rmDevObj (leEncode 8 1)).1
    (by decide) (by decide), ?_⟩
  exact (c6_commitParams_discriminator rmDevObj
      (leEncode 8 1 ++ (leEncode 8 5 ++ []))).2.1 1 5 [] rfl
    (by norm_num) (by norm_num) (by decide) (by decide)

/-! ## Array translation theorems -/

/-- The translation loop hits an out-of-range table access (`none`) exactly
when some slot's client handle is at or beyond the table length. -/
theorem translateSlots_none_iff (tbl : List ServerObject) (n : Nat)
    (bs : List Nat) :
    translateSlots tbl n bs = none
      ↔ ∃ h ∈ slotClientHandles n bs, tbl.length ≤ h := by
  induction n generalizing bs with
  | zero => simp [translateSlots, slotClientHandles]
  | succ k ih =>
    cases hget : tbl.get? (leDecode (bs.take 8)) with
    | none =>
      have hle : tbl.length ≤ leDecode (bs.take 8) := List.get?_eq_none.mp hget
      simp only [translateSlots, hget, slotClientHandles]
      exact ⟨fun _ => ⟨leDecode (bs.take 8), List.mem_cons_self _ _, hle⟩,
        fun _ => trivial⟩
    | some so =>
      have hlt : leDecode (bs.take 8) < tbl.length := by
        by_contra hge
        rw [List.get?_eq_none.mpr (Nat.le_of_not_lt hge)] at hget
        exact Option.noConfusion hget
      simp only [translateSlots, hget, Option.map_eq_none', ih,
        slotClientHandles]
      constructor
      · rintro ⟨h, hmem, hle⟩
        exact ⟨h, List.mem_cons_of_mem _ hmem, hle⟩
      · rintro ⟨h, hmem, hle⟩
        rcases List.mem_cons.mp hmem with heq | hmem2
        · subst heq; omega
        · exact ⟨h, hmem2, hle⟩

/-- When every slot's client handle is within the table, the loop rewrites
each 8-byte slot to the stored backend reference. -/
theorem translateSlots_some (tbl : List ServerObject) (n : Nat) (bs : List Nat)
    (hlen : bs.length = 8 * n)
    (hin : ∀ h ∈ slotClientHandles n bs, h < tbl.length) :
    translateSlots tbl n bs
      = some (((slotClientHandles n bs).map fun h =>
          leEncode 8 (tbl.getD h default).handle).flatten) := by
  induction n generalizing bs with
  | zero =>
    have hbs : bs = [] := List.length_eq_zero.mp (by omega)
    subst hbs
    simp [translateSlots, slotClientHandles]
  | succ k ih =>
    have h0lt : leDecode (bs.take 8) < tbl.length :=
      hin _ (by rw [slotClientHandles]; exact List.mem_cons_self _ _)
    have hget : tbl.get? (leDecode (bs.take 8))
        = some (tbl.getD (leDecode (bs.take 8)) default) := by
      rw [List.get?_eq_getElem?, List.getElem?_eq_getElem h0lt,
        List.getD_eq_getElem?_getD, List.getElem?_eq_getElem h0lt]
      rfl
    have hdroplen : (bs.drop 8).length = 8 * k := by
      rw [List.length_drop, hlen]; omega
    have hdropin : ∀ h ∈ slotClientHandles k (bs.drop 8), h < tbl.length := by
      intro h hm
      exact hin h (by rw [slotClientHandles]; exact List.mem_cons_of_mem _ hm)
    simp only [translateSlots, hget, ih (bs.drop 8) hdroplen hdropin,
      Option.map_some', slotClientHandles, List.map_cons, List.flatten_cons]

/-- Claim C7: for an object-handle element type the translation rewrites each
8-byte slot in place with the backend reference stored in the per-device
object table for that slot's client handle (here: all slot handles within the
table); for a non-object element type the payload bytes are forwarded
unchanged. -/
theorem c7_translate_rewrites_slots (tbl : List ServerObject) (info : ArrayInfo)
    (payload : List Nat) :
    (anariIsObject info.elementType = false →
        translateArrayData tbl info payload = some payload)
    ∧ (anariIsObject info.elementType = true →
        payload.length
          = 8 * (info.numItems1 * max 1 info.numItems2 * max 1 info.numItems3) →
        (∀ h ∈ slotClientHandles
            (info.numItems1 * max 1 info.numItems2 * max 1 info.numItems3)
            payload, h < tbl.length) →
        translateArrayData tbl info payload
          = some (((slotClientHandles
              (info.numItems1 * max 1 info.numItems2 * max 1 info.numItems3)
              payload).map fun h => leEncode 8 (tbl.getD h default).handle).flatten)) := by
  constructor
  · intro hobj
    rw [translateArrayData, if_neg (by simp [hobj])]
  · intro hobj hlen hin
    rw [translateArrayData, if_pos hobj]
    exact translateSlots_some tbl _ payload hlen hin

/-- Witness for C7: a POD payload is forwarded unchanged, and a two-slot
surface-handle payload is rewritten via the concrete table `c7tbl`. -/
theorem c7_translate_rewrites_slots_witness :
    translateArrayData c7tbl c7infoPod c7payload = some c7payload
    ∧ translateArrayData c7tbl c7info c7payload
      = some (((slotClientHandles
          (c7info.numItems1 * max 1 c7info.numItems2 * max 1 c7info.numItems3)
          c7payload).map fun h => leEncode 8 (c7tbl.getD h default).handle).flatten) := by
  constructor
  · exact (c7_translate_rewrites_slots c7tbl c7infoPod c7payload).1 (by decide)
  · exact (c7_translate_rewrites_slots c7tbl c7info c7payload).2 (by decide)
      (by decide) (by decide)

/-- Claim C3 (amended): a slot handle that is within the current table bounds
but was never registered is substituted with the null backend reference; the
translation performs an out-of-range table access (modelled `none`) exactly
when some slot handle reaches the table length — it is then neither rejected
nor substituted. -/
theorem c3_unknown_handle_null_or_oob (tbl : List ServerObject)
    (info : ArrayInfo) (payload : List Nat)
    (hobj : anariIsObject info.elementType = true) :
    ((∀ h ∈ slotClientHandles
        (info.numItems1 * max 1 info.numItems2 * max 1 info.numItems3) payload,
        h < tbl.length)
      ↔ translateArrayData tbl info payload ≠ none)
    ∧ (payload.length
          = 8 * (info.numItems1 * max 1 info.numItems2 * max 1 info.numItems3) →
        (∀ h ∈ slotClientHandles
            (info.numItems1 * max 1 info.numItems2 * max 1 info.numItems3)
            payload, h < tbl.length) →
        (∀ h ∈ slotClientHandles
            (info.numItems1 * max 1 info.numItems2 * max 1 info.numItems3)
            payload, tbl.getD h default = default) →
        translateArrayData tbl info payload
          = some (((slotClientHandles
              (info.numItems1 * max 1 info.numItems2 * max 1 info.numItems3)
              payload).map fun _ => leEncode 8 0).flatten)) := by
  constructor
  · rw [translateArrayData, if_pos hobj, Ne, translateSlots_none_iff]
    push_neg
    constructor
    · intro hin
      exact fun h hm => hin h hm
    · intro hin
      exact fun h hm => hin h hm
  · intro hlen hin hdef
    rw [translateArrayData, if_pos hobj,
      translateSlots_some tbl _ payload hlen hin]
    congr 1
    congr 1
    apply List.map_congr_left
    intro h hm
    rw [hdef h hm]
    rfl

/-- Witness for C3's amended theorem: client handle 0 is within the bounds of
`c7tbl` but unregistered (its record is the default), so the slot is
substituted with the null backend reference. -/
theorem c3_unknown_handle_null_or_oob_witness :
    ((∀ h ∈ slotClientHandles
        (c3infoOne.numItems1 * max 1 c3infoOne.numItems2 * max 1 c3infoOne.numItems3)
        (leEncode 8 0), h < c7tbl.length)
      ↔ translateArrayData c7tbl c3infoOne (leEncode 8 0) ≠ none)
    ∧ translateArrayData c7tbl c3infoOne (leEncode 8 0)
      = some (((slotClientHandles
          (c3infoOne.numItems1 * max 1 c3infoOne.numItems2 * max 1 c3infoOne.numItems3)
          (leEncode 8 0)).map fun _ => leEncode 8 0).flatten) := by
  have h := c3_unknown_handle_null_or_oob c7tbl c3infoOne (leEncode 8 0) (by decide)
  exact ⟨h.1, h.2 (by decide) (by decide) (by decide)⟩

/-- Counterexample to C3 as stated: a one-slot `ANARI_SURFACE` payload
holding the never-registered client handle 5 against a device whose object
table has length 0. The translation loop reads table index 5 — an
out-of-range vector access in the source (modelled `none`): the request is
not rejected and no null substitution happens. -/
theorem c3_counterexample :
    slotClientHandles 1 (leEncode 8 5) = [5]
    ∧ List.length ([] : List ServerObject) ≤ 5
    ∧ translateArrayData [] ⟨ANARI_ARRAY1D, ANARI_SURFACE, 1, 0, 0⟩
        (leEncode 8 5) = none := by
  decide

/-! ## Frame pipeline theorems -/

/-- A posted color response is a `ChannelColor` message carrying the
request's object handle. -/
theorem colorResponse_flags (cf client : CompressionFeatures) (oh : Nat)
    (jpeg : JpegEncoder) (m : FrameChannelMap) (r : ChannelResponse)
    (h : colorChannelResponse cf client oh jpeg m = some r) :
    isColorResponse r = true ∧ isDepthResponse r = false
      ∧ r.objectHandle = oh := by
  rw [colorChannelResponse] at h
  split at h
  · exact Option.noConfusion h
  · split at h
    · exact Option.noConfusion h
    · injection h with h2
      subst h2
      exact ⟨rfl, rfl, rfl⟩

/-- A posted depth response is a `ChannelDepth` message carrying the
request's object handle. -/
theorem depthResponse_flags (cf client : CompressionFeatures) (oh : Nat)
    (snappy : List Nat → List Nat) (m : FrameChannelMap) (r : ChannelResponse)
    (h : depthChannelResponse cf client oh snappy m = some r) :
    isDepthResponse r = true ∧ isColorResponse r = false
      ∧ r.objectHandle = oh := by
  rw [depthChannelResponse] at h
  split at h
  · exact Option.noConfusion h
  · split at h
    · exact Option.noConfusion h
    · injection h with h2
      subst h2
      exact ⟨rfl, rfl, rfl⟩

/-- A color response is posted exactly when the mapped pointer is non-null
and the computed channel size is non-zero. -/
theorem colorChannelResponse_isSome_iff (cf client : CompressionFeatures)
    (oh : Nat) (jpeg : JpegEncoder) (m : FrameChannelMap) :
    (colorChannelResponse cf client oh jpeg m).isSome
      ↔ m.data ≠ none ∧ channelSizeBytes m ≠ 0 := by
  rw [colorChannelResponse]
  cases hd : m.data with
  | none => simp
  | some color =>
    by_cases hsz : channelSizeBytes m = 0 <;> simp [hsz]

/-- Claim C1 (amended): a `RenderFrame` with a valid device handle posts at
most one `ChannelColor` and at most one `ChannelDepth`; every posted response
carries the request's object handle; every `ChannelColor` precedes every
`ChannelDepth`; and exactly one `ChannelColor` is posted iff the mapped color
pointer is non-null and its computed size is non-zero. -/
theorem c1_renderFrame_channel_responses (rm : ResourceManager)
    (client cf : CompressionFeatures) (dh oh : Nat) (jpeg : JpegEncoder)
    (snappy : List Nat → List Nat) (cm dm : FrameChannelMap)
    (out : RenderFrameOutcome)
    (hout : out = handleRenderFrame rm client dh oh cf jpeg snappy cm dm) :
    (out.responses.filter isColorResponse).length ≤ 1
    ∧ (out.responses.filter isDepthResponse).length ≤ 1
    ∧ (∀ r ∈ out.responses, r.objectHandle = oh)
    ∧ out.responses.filter isColorResponse
        ++ out.responses.filter isDepthResponse = out.responses
    ∧ (out.renderCalled = true →
        ((out.responses.filter isColorResponse).length = 1
          ↔ (cm.data ≠ none ∧ channelSizeBytes cm ≠ 0))) := by
  subst hout
  rw [handleRenderFrame]
  by_cases hdev : rm.getDevice dh = 0
  · rw [if_pos hdev]
    exact ⟨by simp, by simp, by simp, by simp, fun hcall => absurd hcall (by simp)⟩
  · rw [if_neg hdev]
    have hiff : (colorChannelResponse cf client oh jpeg cm).isSome
        ↔ cm.data ≠ none ∧ channelSizeBytes cm ≠ 0 :=
      colorChannelResponse_isSome_iff cf client oh jpeg cm
    cases hc : colorChannelResponse cf client oh jpeg cm with
    | none =>
      have hrhs : ¬(cm.data ≠ none ∧ channelSizeBytes cm ≠ 0) := by
        rw [← hiff, hc]
        simp
      cases hd : depthChannelResponse cf client oh snappy dm with
      | none =>
        refine ⟨by simp, by simp, by simp, by simp, fun _ => ?_⟩
        simp [hrhs]
      | some d =>
        obtain ⟨hd1, hd2, hd3⟩ := depthResponse_flags cf client oh snappy dm d hd
        refine ⟨?_, ?_, ?_, ?_, fun _ => ?_⟩
        · simp [hd2]
        · simp [hd1]
        · simp [hd3]
        · simp [hd1, hd2]
        · simp [hd2, hrhs]
    | some c =>
      have hlhs : cm.data ≠ none ∧ channelSizeBytes cm ≠ 0 := by
        rw [← hiff, hc]
        rfl
      obtain ⟨hc1, hc2, hc3⟩ := colorResponse_flags cf client oh jpeg cm c hc
      cases hd : depthChannelResponse cf client oh snappy dm with
      | none =>
        refine ⟨?_, ?_, ?_, ?_, fun _ => ?_⟩
        · simp [hc1]
        · simp [hc2]
        · simp [hc3]
        · simp [hc1, hc2]
        · simp [hc1, hlhs]
      | some d =>
        obtain ⟨hd1, hd2, hd3⟩ := depthResponse_flags cf client oh snappy dm d hd
        refine ⟨?_, ?_, ?_, ?_, fun _ => ?_⟩
        · simp [hc1, hd2]
        · simp [hc2, hd1]
        · simp [hc3, hd3]
        · simp [hc1, hc2, hd1, hd2]
        · simp [hc1, hd2, hlhs]

/-- Counterexample to C1 as stated: a `RenderFrame` on a valid device whose
color-channel map returns a null pointer posts zero `ChannelColor` responses,
not exactly one. -/
theorem c1_counterexample :
    (handleRenderFrame rmOneDevice ⟨true, true⟩ 1 5 ⟨true, true⟩
        (fun _ _ => none) (fun _ => []) cmNullPtr dmNullPtr).renderCalled = true
    ∧ ((handleRenderFrame rmOneDevice ⟨true, true⟩ 1 5 ⟨true, true⟩
        (fun _ _ => none) (fun _ => []) cmNullPtr dmNullPtr).responses.filter
          isColorResponse).length = 0 := by
  decide

/-- Witness for C1's amended theorem on a concrete render with both channels
mapped. -/
theorem c1_renderFrame_channel_responses_witness :
    ((handleRenderFrame rmDevObj ⟨false, false⟩ 1 5 ⟨false, false⟩
        (fun _ _ => none) (fun _ => []) cmSmall dmSmall).responses.filter
          isColorResponse).length ≤ 1
    ∧ (∀ r ∈ (handleRenderFrame rmDevObj ⟨false, false⟩ 1 5 ⟨false, false⟩
        (fun _ _ => none) (fun _ => []) cmSmall dmSmall).responses,
        r.objectHandle = 5)
    ∧ ((handleRenderFrame rmDevObj ⟨false, false⟩ 1 5 ⟨false, false⟩
        (fun _ _ => none) (fun _ => []) cmSmall dmSmall).renderCalled = true →
        (((handleRenderFrame rmDevObj ⟨false, false⟩ 1 5 ⟨false, false⟩
          (fun _ _ => none) (fun _ => []) cmSmall dmSmall).responses.filter
            isColorResponse).length = 1
          ↔ (cmSmall.data ≠ none ∧ channelSizeBytes cmSmall ≠ 0))) := by
  have h := c1_renderFrame_channel_responses rmDevObj ⟨false, false⟩
    ⟨false, false⟩ 1 5 (fun _ _ => none) (fun _ => []) cmSmall dmSmall _ rfl
  exact ⟨h.1, h.2.2.1, h.2.2.2.2⟩

/-- Claim C2 (amended): before any backend call the `RenderFrame` and
`FrameReady` handlers check only the device handle; on failure they post no
response and leave the resource tables unchanged; the object handle is not
checked — with a valid device the backend is invoked even for an unknown
object handle. -/
theorem c2_device_check_only (rm : ResourceManager)
    (client cf : CompressionFeatures) (dh oh mask : Nat) (jpeg : JpegEncoder)
    (snappy : List Nat → List Nat) (cm dm : FrameChannelMap) :
    (rm.getDevice dh = 0 →
        handleRenderFrame rm client dh oh cf jpeg snappy cm dm
            = ⟨rm, false, 0, []⟩
          ∧ handleFrameReady rm dh oh mask = ⟨rm, false, 0, 0, []⟩)
    ∧ (handleRenderFrame rm client dh oh cf jpeg snappy cm dm).rmAfter = rm
    ∧ (handleFrameReady rm dh oh mask).rmAfter = rm
    ∧ ((handleRenderFrame rm client dh oh cf jpeg snappy cm dm).renderCalled
          = true → rm.getDevice dh ≠ 0)
    ∧ ((handleFrameReady rm dh oh mask).frameReadyCalled = true →
        rm.getDevice dh ≠ 0) := by
  by_cases hdev : rm.getDevice dh = 0 <;>
    simp [handleRenderFrame, handleFrameReady, hdev]

/-- Counterexample to C2 as stated: a `FrameReady` with a valid device handle
and a never-registered object handle still calls the backend, passing the
null object reference — the object handle is not validated before the
backend call. -/
theorem c2_counterexample :
    (rmOneDevice.getServerObject 1 42).handle = 0
    ∧ (handleFrameReady rmOneDevice 1 42 1).frameReadyCalled = true
    ∧ (handleFrameReady rmOneDevice 1 42 1).frameArg = 0 := by
  decide

/-- Witness for C2's amended theorem: on the empty session every device
handle is invalid and both handlers drop the request. -/
theorem c2_device_check_only_witness :
    handleRenderFrame ResourceManager.init ⟨true, true⟩ 1 5 ⟨true, true⟩
        (fun _ _ => none) (fun _ => []) cmNullPtr dmNullPtr
      = ⟨ResourceManager.init, false, 0, []⟩
    ∧ handleFrameReady ResourceManager.init 1 5 1
      = ⟨ResourceManager.init, false, 0, 0, []⟩ :=
  (c2_device_check_only ResourceManager.init ⟨true, true⟩ ⟨true, true⟩ 1 5 1
    (fun _ _ => none) (fun _ => []) cmNullPtr dmNullPtr).1 (by decide)

/-- Claim C4 (amended): for a posted `ChannelColor`, lossy compression is
attempted iff both negotiated TurboJPEG flags hold and the pixel type is
8-bit sRGB RGBA, with the encoder invoked at quality 80; when it is not
attempted, the body after the header is the raw channel bytes; when it is
attempted and the encoder succeeds, the body is a `uint32` compressed byte
count followed by exactly that many compressed bytes; when it is attempted
and the encoder fails, nothing is written after the header (the body is
empty). -/
theorem c4_color_compression (cf client : CompressionFeatures) (oh : Nat)
    (jpeg : JpegEncoder) (m : FrameChannelMap) (color : List Nat)
    (hdata : m.data = some color) (hsz : channelSizeBytes m ≠ 0) :
    ∃ r, colorChannelResponse cf client oh jpeg m = some r
      ∧ (¬((cf.hasTurboJPEG && client.hasTurboJPEG) = true
            ∧ m.pixelType = ANARI_UFIXED8_RGBA_SRGB) →
          r.body = color.take (channelSizeBytes m))
      ∧ (∀ out, ((cf.hasTurboJPEG && client.hasTurboJPEG) = true
            ∧ m.pixelType = ANARI_UFIXED8_RGBA_SRGB) →
          jpeg ⟨m.width, m.height, PixelFormatRGBX, 80⟩ color = some out →
          r.body = leEncode 4 out.length ++ out
            ∧ (out.length < 2 ^ 32 →
                leDecode (r.body.take 4) = out.length ∧ r.body.drop 4 = out))
      ∧ (((cf.hasTurboJPEG && client.hasTurboJPEG) = true
            ∧ m.pixelType = ANARI_UFIXED8_RGBA_SRGB) →
          jpeg ⟨m.width, m.height, PixelFormatRGBX, 80⟩ color = none →
          r.body = []) := by
  have hr : colorChannelResponse cf client oh jpeg m
      = some ⟨MsgChannelColor, oh, m.width, m.height, m.pixelType,
          if (cf.hasTurboJPEG && client.hasTurboJPEG) = true
              ∧ m.pixelType = ANARI_UFIXED8_RGBA_SRGB then
            match jpeg ⟨m.width, m.height, PixelFormatRGBX, 80⟩ color with
            | some out => leEncode 4 out.length ++ out
            | none => []
          else color.take (channelSizeBytes m)⟩ := by
    rw [colorChannelResponse, hdata]
    exact if_neg hsz
  refine ⟨_, hr, ?_, ?_, ?_⟩
  · intro hno
    simp only [if_neg hno]
  · intro out hyes henc
    constructor
    · simp only [if_pos hyes, henc]
    · intro hlt
      constructor
      · rw [if_pos hyes, henc]
        show leDecode ((leEncode 4 out.length ++ out).take 4) = out.length
        rw [List.take_left' (leEncode_length 4 out.length), leDecode_leEncode]
        exact Nat.mod_eq_of_lt (by norm_num at hlt ⊢; omega)
      · rw [if_pos hyes, henc]
        show (leEncode 4 out.length ++ out).drop 4 = out
        exact List.drop_left' (leEncode_length 4 out.length)
  · intro hyes hnone
    simp only [if_pos hyes, hnone]

/-- Counterexample to C4 as stated: with both lossy flags negotiated, an
sRGB-RGBA pixel type, and a failing encoder, the posted `ChannelColor`
carries an empty body after the header — neither a size-prefixed compressed
stream nor the raw bytes. -/
theorem c4_counterexample :
    colorChannelResponse ⟨true, true⟩ ⟨true, true⟩ 5 (fun _ _ => none) cmSmall
      = some ⟨MsgChannelColor, 5, 1, 1, ANARI_UFIXED8_RGBA_SRGB, []⟩ := by
  decide

/-- Witness for C4's amended theorem with a succeeding two-byte encoder. -/
theorem c4_color_compression_witness :
    (colorChannelResponse ⟨true, true⟩ ⟨true, true⟩ 5
        (fun _ _ => some [9, 9]) cmSmall).map ChannelResponse.body
      = some (leEncode 4 2 ++ [9, 9]) := by
  obtain ⟨r, hr, _, h2, _⟩ := c4_color_compression ⟨true, true⟩ ⟨true, true⟩ 5
    (fun _ _ => some [9, 9]) cmSmall [1, 2, 3, 4] rfl (by decide)
  rw [hr, Option.map_some', (h2 [9, 9] (by decide) rfl).1]
  rfl

/-! ## GetProperty theorems -/

/-- Claim C8 (amended): every `GetProperty` path returns normally except the
`ANARI_DATA_TYPE_LIST` branch, which (with a valid device) throws a runtime
error that no handler code catches — the exception escapes the
single-message boundary. -/
theorem c8_dataTypeList_throws (rm : ResourceManager) (dh oh : Nat)
    (name : String) (type size mask : Nat)
    (backendProp : Nat → String → Nat → Nat → Nat → Int × List Nat) :
    (∃ msg, handleGetProperty rm dh oh name type size mask backendProp
        = .thrown msg)
      ↔ (rm.getDevice dh ≠ 0 ∧ type = ANARI_DATA_TYPE_LIST) := by
  by_cases hdev : rm.getDevice dh = 0
  · simp [handleGetProperty, hdev]
  · by_cases hsl : type = ANARI_STRING_LIST
    · subst hsl
      simp [handleGetProperty, hdev,
        (by decide : ANARI_STRING_LIST ≠ ANARI_DATA_TYPE_LIST)]
    · by_cases hdtl : type = ANARI_DATA_TYPE_LIST
      · subst hdtl
        simp [handleGetProperty, hdev, hsl]
      · simp [handleGetProperty, hdev, hsl, hdtl]

/-- Counterexample to C8 as stated: a `GetProperty` with a valid device and
type `ANARI_DATA_TYPE_LIST` makes the handler throw; nothing inside the
message handler catches it. -/
theorem c8_counterexample :
    handleGetProperty rmOneDevice 1 0 "version" ANARI_DATA_TYPE_LIST 4 1
        (fun _ _ _ _ _ => (0, []))
      = .thrown "getProperty with ANARI_DATA_TYPE_LIST not implemented yet!" := by
  decide

/-- Witness for C8's amended theorem: the throwing branch is reachable, so
the characterization is not vacuous. -/
theorem c8_dataTypeList_throws_witness :
    rmOneDevice.getDevice 1 ≠ 0 ∧ ANARI_DATA_TYPE_LIST = ANARI_DATA_TYPE_LIST :=
  (c8_dataTypeList_throws rmOneDevice 1 0 "version" ANARI_DATA_TYPE_LIST 4 1
    (fun _ _ _ _ _ => (0, []))).mp
    ⟨"getProperty with ANARI_DATA_TYPE_LIST not implemented yet!", by decide⟩

/-! ## Resource-manager invariant theorems -/

theorem resizeTo_length (l : List α) (n : Nat) (d : α) :
    (resizeTo l n d).length = n := by
  simp [resizeTo]
  omega

/-- `registerDevice` resizes all three tables to the same new length. -/
theorem registerDevice_lengths (rm : ResourceManager) (dev : Nat) :
    (rm.registerDevice dev).2.anariDevices.length
        = max rm.anariDevices.length (rm.nextDeviceHandle + 1)
      ∧ (rm.registerDevice dev).2.serverObjects.length
        = max rm.anariDevices.length (rm.nextDeviceHandle + 1)
      ∧ (rm.registerDevice dev).2.serverArrays.length
        = max rm.anariDevices.length (rm.nextDeviceHandle + 1) := by
  refine ⟨?_, ?_, ?_⟩ <;>
    simp [ResourceManager.registerDevice, resizeTo_length]

/-- What a successful `registerObject` did to the state: only the inner
object table of device `d` changed, and `d` was within the device table. -/
theorem registerObject_some (rm rm1 : ResourceManager) (d o obj ty : Nat)
    (h : rm.registerObject d o obj ty = some rm1) :
    rm1.anariDevices = rm.anariDevices
      ∧ rm1.serverObjects.length = rm.serverObjects.length
      ∧ rm1.serverArrays = rm.serverArrays
      ∧ d < rm.anariDevices.length := by
  rw [ResourceManager.registerObject] at h
  split at h
  case isTrue hg =>
    injection h with h1
    subst h1
    exact ⟨rfl, List.length_set _ _ _, rfl, hg.2⟩
  case isFalse hg => exact Option.noConfusion h

/-- One dispatcher-visible operation preserves the table invariant, never
shrinks the tables, and only registers at device indices inside them. -/
theorem applyOp_step (rm rm1 : ResourceManager) (op : RMOp)
    (h : rm.applyOp op = some rm1) (hinv : rmInv rm) :
    rmInv rm1 ∧ rm.anariDevices.length ≤ rm1.anariDevices.length
      ∧ (∀ d, op.regIndex = some d → d < rm1.anariDevices.length) := by
  cases op with
  | regDevice dev =>
    injection h with h1
    subst h1
    obtain ⟨l1, l2, l3⟩ := registerDevice_lengths rm dev
    refine ⟨⟨by rw [l1, l2], by rw [l1, l3]⟩, by rw [l1]; omega, ?_⟩
    intro d hd
    exact Option.noConfusion hd
  | regObject d o obj ty =>
    obtain ⟨ha1, ha2, ha3, ha4⟩ := registerObject_some rm rm1 d o obj ty h
    refine ⟨⟨?_, ?_⟩, ?_, ?_⟩
    · rw [ha2, ha1, hinv.1]
    · rw [ha3, ha1, hinv.2]
    · rw [ha1]
    · intro d2 hd2
      injection hd2 with h3
      subst h3
      rw [ha1]
      exact ha4
  | regArray d o obj info =>
    rw [ResourceManager.applyOp, ResourceManager.registerArray] at h
    cases hx : rm.registerObject d o obj info.type with
    | none => rw [hx] at h; exact Option.noConfusion h
    | some rmA =>
      rw [hx, Option.some_bind] at h
      obtain ⟨ha1, ha2, ha3, ha4⟩ :=
        registerObject_some rm rmA d o obj info.type hx
      split at h
      case isTrue hg2 =>
        injection h with h1
        subst h1
        refine ⟨⟨?_, ?_⟩, ?_, ?_⟩
        · show rmA.serverObjects.length = rmA.anariDevices.length
          rw [ha2, ha1, hinv.1]
        · show (rmA.serverArrays.set d _).length = rmA.anariDevices.length
          rw [List.length_set, ha3, ha1, hinv.2]
        · rw [ha1]
        · intro d2 hd2
          injection hd2 with h3
          subst h3
          exact ha1.symm ▸ ha4
      case isFalse hg2 => exact Option.noConfusion h
  | getDev d =>
    injection h with h1
    subst h1
    exact ⟨hinv, le_refl _, fun d2 hd2 => Option.noConfusion hd2⟩
  | getObj d o =>
    injection h with h1
    subst h1
    exact ⟨hinv, le_refl _, fun d2 hd2 => Option.noConfusion hd2⟩
  | getArr d o =>
    injection h with h1
    subst h1
    exact ⟨hinv, le_refl _, fun d2 hd2 => Option.noConfusion hd2⟩

/-- Claim C10: after any operation trace that runs without an out-of-range
access, the three top-level tables have equal length, that common length
never shrinks, and every registering operation's device index is strictly
below the final common length. -/
theorem c10_table_invariant (ops : List RMOp) (rm rm' : ResourceManager)
    (hinv : rmInv rm) (hrun : runOps rm ops = some rm') :
    rmInv rm' ∧ rm.anariDevices.length ≤ rm'.anariDevices.length
      ∧ ∀ op ∈ ops, ∀ d, op.regIndex = some d →
          d < rm'.anariDevices.length := by
  induction ops generalizing rm with
  | nil =>
    rw [runOps] at hrun
    injection hrun with h1
    subst h1
    exact ⟨hinv, le_refl _, by simp⟩
  | cons op ops ih =>
    rw [runOps] at hrun
    cases happ : rm.applyOp op with
    | none => rw [happ] at hrun; exact Option.noConfusion hrun
    | some rm1 =>
      rw [happ] at hrun
      obtain ⟨s1, s2, s3⟩ := applyOp_step rm rm1 op happ hinv
      obtain ⟨i1, i2, i3⟩ := ih rm1 s1 hrun
      refine ⟨i1, le_trans s2 i2, ?_⟩
      intro op2 hmem d hd
      rcases List.mem_cons.mp hmem with heq | hmem2
      · subst heq
        exact lt_of_lt_of_le (s3 d hd) i2
      · exact i3 op2 hmem2 d hd

/-- Witness for C10 on the concrete trace `c10ops` from the empty session. -/
theorem c10_table_invariant_witness :
    rmInv ((runOps ResourceManager.init c10ops).getD ResourceManager.init)
    ∧ ResourceManager.init.anariDevices.length
        ≤ ((runOps ResourceManager.init c10ops).getD
            ResourceManager.init).anariDevices.length
    ∧ ∀ op ∈ c10ops, ∀ d, op.regIndex = some d →
        d < ((runOps ResourceManager.init c10ops).getD
            ResourceManager.init).anariDevices.length := by
  have h : runOps ResourceManager.init c10ops
      = some ((runOps ResourceManager.init c10ops).getD ResourceManager.init) := by
    decide
  exact c10_table_invariant c10ops ResourceManager.init _ (by decide) h

end ANARIRemote
